import Mathlib

/-!
Verification development for the PaperRAG backend's core pipeline:
two-stage retrieval (`app/services/rag_service.py`), provenance chunking
(`app/utils/chunk_utils.py`), PDF text cleaning and metadata resolution
(`app/utils/pdf_utils.py`).

External collaborators (the chroma vector index, the embedding model, the
LLM providers, the Crossref/arXiv registries, and langchain's
`RecursiveCharacterTextSplitter`) are modelled as oracle parameters: the
development proves properties of the repository's own orchestration logic
for every possible behaviour of those collaborators, and evaluates it on
concrete oracle outputs where a concrete run is needed.
-/

set_option maxHeartbeats 1000000
set_option maxRecDepth 100000

namespace PaperRAG

/-! ## Data model for the retrieval engine (`rag_service.search`)

Chroma metadata records are Python dicts; the model keeps exactly the keys
that `search` reads (`hash`, `paper_id`, `title`, `year` for paper records;
`paper_id`, `chunk_id`, `page_start`, `page_end` for chunk records), each as
an `Option` since `dict.get` may find the key absent. -/

structure PaperMeta where
  hash : Option String
  paper_id : Option String
  title : Option String
  year : Option Int
  deriving Repr, DecidableEq

structure ChunkMeta where
  paper_id : Option String
  chunk_id : Option Int
  page_start : Option Int
  page_end : Option Int
  deriving Repr, DecidableEq

/-- A single-query slice of a chroma query result for the papers collection:
`paper_results["metadatas"][0]` and `paper_results["distances"][0]`. -/
structure PaperQueryResult where
  metadatas : List PaperMeta
  distances : List ℚ
  deriving Repr, DecidableEq

/-- A single-query slice of a chroma query result for the chunks collection. -/
structure ChunkQueryResult where
  documents : List String
  metadatas : List ChunkMeta
  distances : List ℚ
  deriving Repr, DecidableEq

/-- One element of the `sources` list built by `search` (step 4). -/
structure SourceRec where
  chunk_text : String
  chunk_id : Option Int
  paper_id : String
  paper_title : String
  paper_year : Option Int
  page_start : Option Int
  page_end : Option Int
  score : ℚ
  deriving Repr, DecidableEq

/-- The dict returned by `search`.  The empty-corpus short-circuit returns a
dict without `model_used`/`prompt_mode` keys; absence is modelled by `none`. -/
structure SearchResult where
  query : String
  sources : List SourceRec
  answer : String
  model_used : Option String
  prompt_mode : Option String
  deriving Repr, DecidableEq

/-- The four completion backends of `llm_service`, as black-box oracles
(`generate_completion_local` takes model and prompt; the cloud ones also take
an api key).  `.error` models a raised exception. -/
structure ProviderOracles where
  genLocal : String → String → Except String String
  genOpenai : String → String → String → Except String String
  genGemini : String → String → String → Except String String
  genClaude : String → String → String → Except String String

/-- `rag_service.generate_answer`: dispatch on the provider string;
an unsupported provider raises `ValueError`. -/
def generate_answer (po : ProviderOracles) (provider model api_key prompt : String) :
    Except String String :=
  if provider = "Local" then po.genLocal model prompt
  else if provider = "OpenAI" then po.genOpenai model api_key prompt
  else if provider = "Google" then po.genGemini model api_key prompt
  else if provider = "Anthropic" then po.genClaude model api_key prompt
  else .error ("Unsupported provider: " ++ provider)

/-- External collaborators used by one `search` call: the embedding gateway,
the two collection queries (the chunk query takes the `$in` filter list of
candidate paper ids), and the completion providers. -/
structure SearchDeps where
  embed : String → List ℚ
  paperQuery : List ℚ → Nat → PaperQueryResult
  chunkQuery : List ℚ → Nat → List (Option String) → ChunkQueryResult
  providers : ProviderOracles

/-! ## Python's `zip` over four lists -/

def zip4 {α β γ δ : Type} : List α → List β → List γ → List δ → List (α × β × γ × δ)
  | a :: as, b :: bs, c :: cs, d :: ds => (a, b, c, d) :: zip4 as bs cs ds
  | _, _, _, _ => []

/-! ## Python `round` (banker's rounding) on exact rationals -/

/-- Round to the nearest integer, ties to even — the rounding of Python's
built-in `round`.  (The source rounds a Python float; the model uses the
exact rational value.) -/
def roundHalfEven (x : ℚ) : ℤ :=
  if x - ⌊x⌋ < 1/2 then ⌊x⌋
  else if 1/2 < x - ⌊x⌋ then ⌊x⌋ + 1
  else if ⌊x⌋ % 2 = 0 then ⌊x⌋ else ⌊x⌋ + 1

/-- Python `round(x, 2)`. -/
def pyRound2 (x : ℚ) : ℚ := (roundHalfEven (x * 100) : ℚ) / 100

/-! ## The `search` pipeline (`rag_service.py`, lines 133–274) -/

/-- Step 2: `papers_collection.query(..., n_results=min(5, k), ...)`. -/
def paperStage (deps : SearchDeps) (query : String) (k : Nat) : PaperQueryResult :=
  deps.paperQuery (deps.embed query) (min 5 k)

/-- `candidate_papers`: pairs `(meta.get("hash"), 1 - dist)` from the zipped
metadata/distance lists of the paper query. -/
def candidatePapers (pr : PaperQueryResult) : List (Option String × ℚ) :=
  (pr.metadatas.zip pr.distances).map fun md => (md.1.hash, 1 - md.2)

/-- Step 3: `chunks_collection.query(..., n_results=k, where={"paper_id":
{"$in": [pid for pid, _ in candidate_papers]}}, ...)`. -/
def chunkStage (deps : SearchDeps) (query : String) (k : Nat) : ChunkQueryResult :=
  deps.chunkQuery (deps.embed query) k
    ((candidatePapers (paperStage deps query k)).map Prod.fst)

/-- Step 4 of `search`: `for chunk, chunk_mata, meta, score in zip(chunks,
chunk_matas, metas, scores)` where `metas` is the **paper** metadata list,
zipped positionally with the chunk results. -/
def buildSources (chunks : List String) (chunk_matas : List ChunkMeta)
    (metas : List PaperMeta) (scores : List ℚ) : List SourceRec :=
  (zip4 chunks chunk_matas metas scores).map fun x =>
    { chunk_text := x.1
      chunk_id := x.2.1.chunk_id
      paper_id := x.2.2.1.paper_id.getD ""
      paper_title := x.2.2.1.title.getD ""
      paper_year := x.2.2.1.year
      page_start := x.2.1.page_start
      page_end := x.2.1.page_end
      score := pyRound2 ((1 - x.2.2.2) * 100) }

/-! ## Prompt composition (`search`, lines 212–259) -/

/-- Simplified Python `str.format(context=..., query=...)` over the template's
characters: literal text is copied, `\x7b\x7b`/`\x7d\x7d` unescape to single
braces, the fields `context` and `query` are substituted, and any other or
ill-formed replacement field raises (KeyError / ValueError), modelled as
`.error`.  Conversion/format-spec syntax (`!r`, `:>10`) and positional fields
are not modelled beyond raising, which is all the development uses. -/
inductive FmtState where
  | plain
  | afterOpen
  | inField (acc : List Char)
  | afterClose
  deriving Repr, DecidableEq

def pyFormatRun (ctx q : String) : FmtState → List Char → Except String (List Char)
  | .plain, [] => .ok []
  | .plain, c :: cs =>
    if c = '\x7b' then pyFormatRun ctx q .afterOpen cs
    else if c = '\x7d' then pyFormatRun ctx q .afterClose cs
    else (pyFormatRun ctx q .plain cs).map (c :: ·)
  | .afterOpen, [] => .error "ValueError: Single brace encountered in format string"
  | .afterOpen, c :: cs =>
    if c = '\x7b' then (pyFormatRun ctx q .plain cs).map ('\x7b' :: ·)
    else if c = '\x7d' then .error "IndexError: Replacement index out of range"
    else pyFormatRun ctx q (.inField [c]) cs
  | .inField _, [] => .error "ValueError: Single brace encountered in format string"
  | .inField acc, c :: cs =>
    if c = '\x7d' then
      if acc.reverse = "context".toList then (pyFormatRun ctx q .plain cs).map (ctx.toList ++ ·)
      else if acc.reverse = "query".toList then (pyFormatRun ctx q .plain cs).map (q.toList ++ ·)
      else .error ("KeyError: " ++ String.mk acc.reverse)
    else if c = '\x7b' then .error "ValueError: unexpected brace in field name"
    else pyFormatRun ctx q (.inField (c :: acc)) cs
  | .afterClose, c :: cs =>
    if c = '\x7d' then (pyFormatRun ctx q .plain cs).map ('\x7d' :: ·)
    else .error "ValueError: Single brace encountered in format string"
  | .afterClose, [] => .error "ValueError: Single brace encountered in format string"

/-- `custom_prompt.format(context=context, query=query)`. -/
def pyFormat (tpl ctx q : String) : Except String String :=
  (pyFormatRun ctx q .plain tpl.toList).map fun l => String.mk l

/-- The `summary` template (an f-string in the source; reproduced with its
interpolations made explicit, whitespace normalised to single newlines). -/
def summaryPrompt (query context : String) : String :=
  "\nYou are an academic research assistant.\n" ++
  "Summarize the following text **only in relation to the query**: \"" ++ query ++ "\".\n\n" ++
  "Guidelines:\n- Focus strictly on information that answers the query.\n" ++
  "- Highlight not just *what* the authors say, but also *why it matters* (motivation, implications).\n" ++
  "- Ignore irrelevant details.\n" ++
  "- If the context does not contain enough information, say so explicitly.\n\n" ++
  "Context:\n" ++ context ++ "\n"

/-- The `tech` template. -/
def techPrompt (query context : String) : String :=
  "\nYou are a technical expert.\n" ++
  "Provide a detailed, structured explanation to answer the query: \"" ++ query ++ "\".\n\n" ++
  "Guidelines:\n- Use the provided context as your primary source.\n" ++
  "- Start with a concise **direct answer**.\n" ++
  "- Then break down the explanation into sections (e.g., Definitions, Methodology, Results, Implications).\n" ++
  "- Include equations, numbers, or examples if they appear in the context.\n" ++
  "- If the context is insufficient, acknowledge the gap instead of inventing details.\n\n" ++
  "Context:\n" ++ context ++ "\n"

/-- The `citation` template. -/
def citationPrompt (query context : String) : String :=
  "\nYou are an academic citation assistant.\n" ++
  "Find the most relevant citations from the text to support the query: \"" ++ query ++ "\".\n\n" ++
  "Guidelines:\n- Extract direct references, author names, or publication details exactly as given.\n" ++
  "- Present results in the format: [Author, Year] or closest possible.\n" ++
  "- If no clear citation exists, state: \"No relevant citation found in the context.\"\n\n" ++
  "Context:\n" ++ context ++ "\n"

/-- Lines 212–259 of `search`: `custom` runs `str.format` on the caller's
template; otherwise a dict lookup over the three fixed templates with the
generic one-liner as `.get` default. -/
def composePrompt (prompt_mode custom_prompt context query : String) :
    Except String String :=
  if prompt_mode = "custom" then pyFormat custom_prompt context query
  else .ok (
    if prompt_mode = "summary" then summaryPrompt query context
    else if prompt_mode = "tech" then techPrompt query context
    else if prompt_mode = "citation" then citationPrompt query context
    else "Answer the question '" ++ query ++ "' using this context:\n" ++ context)

/-- `rag_service.search`.  Any exception (format error, provider dispatch
error, provider failure) propagates to the caller as `.error`, matching the
re-raising `except` block. -/
def search (query : String) (k : Nat)
    (model provider api_key prompt_mode custom_prompt : String)
    (deps : SearchDeps) : Except String SearchResult :=
  let paper_results := paperStage deps query k
  let candidate_papers := candidatePapers paper_results
  if candidate_papers.isEmpty then
    .ok { query := query, sources := [], answer := "No relevant papers found.",
          model_used := none, prompt_mode := none }
  else
    let results := chunkStage deps query k
    let sources := buildSources results.documents results.metadatas
      paper_results.metadatas results.distances
    let context := String.intercalate "\n\n" (sources.map SourceRec.chunk_text)
    match composePrompt prompt_mode custom_prompt context query with
    | .error e => .error e
    | .ok prompt =>
      match generate_answer deps.providers provider model api_key prompt with
      | .error e => .error e
      | .ok answer =>
        .ok { query := query, sources := sources, answer := answer,
              model_used := some model, prompt_mode := some prompt_mode }

/-! ## The substitute-abstract fallback of `add_paper`
(`rag_service.py`, lines 40–47) -/

/-- Python `text.split("\n\n")` over the text's characters: split at
non-overlapping occurrences of a double newline, scanning left to right. -/
def splitParas : List Char → List (List Char)
  | [] => [[]]
  | '\n' :: '\n' :: rest => [] :: splitParas rest
  | c :: rest =>
    match splitParas rest with
    | h :: t => (c :: h) :: t
    | [] => [[c]]

/-- Python `"\n\n" in text`. -/
def containsDNl : List Char → Bool
  | '\n' :: '\n' :: _ => true
  | _ :: rest => containsDNl rest
  | [] => false

/-- Index of the first occurrence of a double newline, if any (an
independent description of the split position, used to state the amended
claim without reference to `splitParas`). -/
def findDNlIdx : List Char → Option Nat
  | '\n' :: '\n' :: _ => some 0
  | _ :: rest => (findDNlIdx rest).map (· + 1)
  | [] => none

/-- `add_paper`'s substitute abstract (line 46):
`text_first_page.split("\n\n")[1] if "\n\n" in text_first_page else
text_first_page[:1000]`.  (When `"\n\n"` occurs the split has at least two
elements, so index 1 is in range; `getD []` is never the taken branch.) -/
def fallbackAbstract (text_first_page : List Char) : List Char :=
  if containsDNl text_first_page then
    ((splitParas text_first_page).get? 1).getD []
  else
    text_first_page.take 1000

/-- Lines 41–47 of `add_paper`: `abstract = meta.get("abstract")`, then
`if not abstract:` (key absent, `None`, or empty string) substitute the
fallback.  The returned value is what `add_paper` embeds
(`embedding.get_embeddings([abstract])`) and stores in the paper record. -/
def chooseAbstract (metaAbstract : Option String) (text_first_page : List Char) : List Char :=
  match metaAbstract with
  | some a => if a = "" then fallbackAbstract text_first_page else a.toList
  | none => fallbackAbstract text_first_page

/-- The claim's description of the substitute: the *first paragraph* of
page-one text, i.e. the text before the first double newline, or the first
1000 characters when no double newline exists.  (Stated from the claim's
words, for comparison with the code's `fallbackAbstract`.) -/
def specFirstParagraphAbstract (t : List Char) : List Char :=
  match findDNlIdx t with
  | some i => t.take i
  | none => t.take 1000

/-- The amended claim's description of the substitute: the segment *between*
the first double newline and the following double newline (or the end of the
text), or the first 1000 characters when no double newline exists. -/
def specSecondSegmentAbstract (t : List Char) : List Char :=
  match findDNlIdx t with
  | none => t.take 1000
  | some i =>
    match findDNlIdx (t.drop (i + 2)) with
    | none => t.drop (i + 2)
    | some j => (t.drop (i + 2)).take j

/-! ## A small backtracking regex engine

`pdf_utils.py` is built around fixed `re` patterns.  Each pattern is
transcribed below as an `RE` syntax tree mirroring the Python regex
token-for-token, and run by a leftmost/greedy backtracking matcher with the
semantics of Python `re`: alternation prefers the left branch, `*`/`+` are
greedy (or lazy for `*?`/`+?`), `^`/`$` come in single-line and MULTILINE
variants, and `\b` tests word characters on both sides.  `REmatch` returns
the possible `(last consumed char, remaining suffix)` outcomes in
backtracking priority order; the scan helpers take the first.  The matcher
is fueled for structural termination; the fuel bound exceeds every run the
development performs. -/

/-- Python `\w` (ASCII range; the development only applies it to ASCII). -/
def isWordChar (c : Char) : Bool := c.isAlpha || c.isDigit || c = '_'

/-- Python `\s` (ASCII range). -/
def isPySpace (c : Char) : Bool :=
  c = ' ' || c = '\t' || c = '\n' || c = '\r' || c = '\x0b' || c = '\x0c'

inductive RE where
  | eps
  | lit (c : Char)
  | cls (p : Char → Bool)
  | seq (a b : RE)
  | alt (a b : RE)
  | star (greedy : Bool) (a : RE)
  | bos
  | eosNL
  | bom
  | eom
  | wb

def RE.opt (a : RE) : RE := .alt a .eps

def RE.plus (a : RE) : RE := .seq a (.star true a)

def RE.plusLazy (a : RE) : RE := .seq a (.star false a)

def RE.repN (a : RE) : Nat → RE
  | 0 => .eps
  | n+1 => .seq a (RE.repN a n)

def RE.upTo (a : RE) : Nat → RE
  | 0 => .eps
  | n+1 => .alt (.seq a (RE.upTo a n)) .eps

/-- `a{lo,hi}` (greedy). -/
def RE.repRange (a : RE) (lo hi : Nat) : RE := .seq (RE.repN a lo) (RE.upTo a (hi - lo))

/-- `a{lo,}` (greedy). -/
def RE.atLeast (a : RE) (lo : Nat) : RE := .seq (RE.repN a lo) (.star true a)

def RE.ofList : List Char → RE
  | [] => .eps
  | c :: cs => .seq (.lit c) (RE.ofList cs)

def isWordOpt : Option Char → Bool
  | none => false
  | some c => isWordChar c

def REmatch : Nat → RE → Option Char → List Char → List (Option Char × List Char)
  | 0, _, _, _ => []
  | fuel+1, re, prev, s =>
    match re with
    | .eps => [(prev, s)]
    | .lit c =>
      match s with
      | [] => []
      | c2 :: rest => if c2 = c then [(some c2, rest)] else []
    | .cls p =>
      match s with
      | [] => []
      | c2 :: rest => if p c2 then [(some c2, rest)] else []
    | .seq a b => (REmatch fuel a prev s).flatMap fun pr => REmatch fuel b pr.1 pr.2
    | .alt a b => REmatch fuel a prev s ++ REmatch fuel b prev s
    | .star g a =>
      let more := (REmatch fuel a prev s).flatMap fun pr =>
        if pr.2.length < s.length then REmatch fuel (.star g a) pr.1 pr.2 else []
      if g then more ++ [(prev, s)] else (prev, s) :: more
    | .bos => if prev = none then [(prev, s)] else []
    | .bom => if prev = none || prev = some '\n' then [(prev, s)] else []
    | .eosNL => if s.isEmpty || s = ['\n'] then [(prev, s)] else []
    | .eom => if s.isEmpty || s.head? = some '\n' then [(prev, s)] else []
    | .wb => if isWordOpt prev != isWordOpt s.head? then [(prev, s)] else []

def reFuel (s : List Char) : Nat := 64 * (s.length + 4)

/-- Python `re.sub`: scan left to right, replace each non-overlapping
leftmost match, continuing after the replaced text; an empty match inserts
the replacement and advances one character. -/
def reSubScan (re : RE) (repl : List Char) : Nat → Option Char → List Char → List Char
  | 0, _, s => s
  | sfuel+1, prev, s =>
    match (REmatch (reFuel s) re prev s).head? with
    | some (p2, rest) =>
      if rest.length < s.length then
        repl ++ reSubScan re repl sfuel p2 rest
      else
        match s with
        | [] => repl
        | c :: s2 => repl ++ c :: reSubScan re repl sfuel (some c) s2
    | none =>
      match s with
      | [] => []
      | c :: s2 => c :: reSubScan re repl sfuel (some c) s2

def reSub (re : RE) (repl : List Char) (s : List Char) : List Char :=
  reSubScan re repl (s.length + 1) none s

/-- Python `re.search`: the leftmost match's text (group 0). -/
def reSearchScan (re : RE) : Nat → Option Char → List Char → Option (List Char)
  | 0, _, _ => none
  | sfuel+1, prev, s =>
    match (REmatch (reFuel s) re prev s).head? with
    | some (_, rest) => some (s.take (s.length - rest.length))
    | none =>
      match s with
      | [] => none
      | c :: s2 => reSearchScan re sfuel (some c) s2

def reSearch (re : RE) (s : List Char) : Option (List Char) :=
  reSearchScan re (s.length + 1) none s

/-! ## Identifier patterns (`extract_pdf_metadata`, `pdf_utils.py` 160–179) -/

/-- The class `[-._;()/:A-Z0-9]` under `re.I` (so letters of both cases). -/
def doiTailChar (c : Char) : Bool :=
  c = '-' || c = '.' || c = '_' || c = ';' || c = '(' || c = ')' || c = '/' || c = ':' ||
  c.isAlpha || c.isDigit

/-- `10\.\d{4,9}/[-._;()/:A-Z0-9]+` with `re.I`. -/
def doiRE : RE :=
  .seq (RE.ofList "10.".toList)
    (.seq (RE.repRange (.cls Char.isDigit) 4 9)
      (.seq (.lit '/') (RE.plus (.cls doiTailChar))))

/-- `arXiv:\d{4}\.\d{4,5}(v\d+)?`. -/
def arxivIdRE : RE :=
  .seq (RE.ofList "arXiv:".toList)
    (.seq (RE.repN (.cls Char.isDigit) 4)
      (.seq (.lit '.')
        (.seq (RE.repRange (.cls Char.isDigit) 4 5)
          (RE.opt (.seq (.lit 'v') (RE.plus (.cls Char.isDigit)))))))

def doiSearch (s : List Char) : Option (List Char) := reSearch doiRE s

def arxivSearch (s : List Char) : Option (List Char) := reSearch arxivIdRE s

/-! ## The metadata cascade (`pdf_utils.py`, lines 78–179) -/

/-- The bibliographic record the cascade returns: a Python dict with a
varying key set; absent keys are `none`. -/
structure BibRecord where
  doi : Option String := none
  arxiv_id : Option String := none
  title : Option String := none
  authors : Option (List String) := none
  year : Option Int := none
  abstract : Option String := none
  source : String
  error : Option String := none
  deriving Repr, DecidableEq

/-- The fields `fetch_metadata_from_doi` extracts from a successful Crossref
response (`result["message"]`): first title entry, formatted author names,
print-date-preferred year, tag-stripped abstract.  The parsing of the raw
JSON wire format into these fields is folded into the oracle's parsed
message: the registry is an external collaborator and no claim depends on
that parsing. -/
structure CrossrefMsg where
  title : Option String
  authors : List String
  year : Option Int
  abstract : Option String
  deriving Repr, DecidableEq

/-- Likewise for a successful arXiv lookup. -/
structure ArxivMsg where
  title : String
  authors : List String
  year : Int
  abstract : String
  deriving Repr, DecidableEq

/-- `fetch_metadata_from_doi`: a raised lookup exception is converted into
the error-tagged record `{doi, source: "crossref_error", error}`. -/
def fetch_metadata_from_doi (crossref : String → Except String CrossrefMsg)
    (doi : String) : BibRecord :=
  match crossref doi with
  | .ok msg =>
    { doi := some doi, title := msg.title, authors := some msg.authors,
      year := msg.year, abstract := msg.abstract, source := "crossref" }
  | .error e => { doi := some doi, source := "crossref_error", error := some e }

/-- `fetch_metadata_from_arxiv`. -/
def fetch_metadata_from_arxiv (arxivSvc : String → Except String ArxivMsg)
    (arxiv_id : String) : BibRecord :=
  match arxivSvc arxiv_id with
  | .ok msg =>
    { arxiv_id := some arxiv_id, title := some msg.title, authors := some msg.authors,
      year := some msg.year, abstract := some msg.abstract, source := "arxiv" }
  | .error e => { arxiv_id := some arxiv_id, source := "arxiv_error", error := some e }

/-- `extract_pdf_metadata` on the document's first-page text: try the DOI
regex; if it matched, take the DOI path and stop; otherwise try the arXiv
regex; otherwise run the heuristic first-page parser
(`extract_basic_metadata_from_pdf`, abstracted as an oracle — no claim
exercises its internals).  The matched arXiv text has its leading `"arXiv:"`
tag removed (`.replace("arXiv:", "")`; the tag occurs exactly once, at the
start, since the rest of the match is digits, a dot, and `v`). -/
def extract_pdf_metadata (crossref : String → Except String CrossrefMsg)
    (arxivSvc : String → Except String ArxivMsg)
    (heuristic : String → BibRecord)
    (first_page_text : String) : BibRecord :=
  match doiSearch first_page_text.toList with
  | some d => fetch_metadata_from_doi crossref (String.mk d)
  | none =>
    match arxivSearch first_page_text.toList with
    | some m => fetch_metadata_from_arxiv arxivSvc (String.mk (m.drop 6))
    | none => heuristic first_page_text

/-! ## The page-cleaning pipeline (`extract_text_from_pdf`,
`pdf_utils.py` lines 12–75)

`cleanPage` is the body of the per-page loop: the ordered `re.sub` passes,
with `unicodedata.normalize("NFKC", ·)` abstracted as the `nfkc` parameter
(it is an external library function; on the ASCII strings the development
evaluates, it is the identity, which theorems hypothesise explicitly). -/

def wsRE : RE := .cls isPySpace

/-- `.` (no DOTALL). -/
def dotNoNl : RE := .cls (· ≠ '\n')

def digitRE : RE := .cls Char.isDigit

/-- `-\s*\n\s*` (replaced by `""`). -/
def reA : RE := .seq (.lit '-') (.seq (.star true wsRE) (.seq (.lit '\n') (.star true wsRE)))

/-- `\n+`. -/
def reB : RE := RE.plus (.lit '\n')

/-- `arXiv:\d+\.\d+(v\d+)?`. -/
def reC : RE :=
  .seq (RE.ofList "arXiv:".toList)
    (.seq (RE.plus digitRE) (.seq (.lit '.') (.seq (RE.plus digitRE)
      (RE.opt (.seq (.lit 'v') (RE.plus digitRE))))))

/-- `Page \d+/\d+`. -/
def reD : RE :=
  .seq (RE.ofList "Page ".toList) (.seq (RE.plus digitRE) (.seq (.lit '/') (RE.plus digitRE)))

/-- `©.*?(\d{4})`. -/
def reE : RE := .seq (.lit '©') (.seq (.star false dotNoNl) (RE.repN digitRE 4))

/-- `^\d+\s*$` with `re.MULTILINE` (replaced by `""`). -/
def reG : RE := .seq .bom (.seq (RE.plus digitRE) (.seq (.star true wsRE) .eom))

/-- `[-=*_]{3,}`. -/
def reH : RE := RE.atLeast (.cls fun c => c = '-' || c = '=' || c = '*' || c = '_') 3

/-- `\b\d+/\d+\b`. -/
def reI1 : RE := .seq .wb (.seq (RE.plus digitRE) (.seq (.lit '/') (.seq (RE.plus digitRE) .wb)))

/-- `\b\d+\^\d+\b`. -/
def reI2 : RE := .seq .wb (.seq (RE.plus digitRE) (.seq (.lit '^') (.seq (RE.plus digitRE) .wb)))

/-- `\b(?:sin|cos|tan|log|ln|exp)\b`. -/
def reI3 : RE :=
  .seq .wb (.seq
    (.alt (RE.ofList "sin".toList) (.alt (RE.ofList "cos".toList) (.alt (RE.ofList "tan".toList)
      (.alt (RE.ofList "log".toList) (.alt (RE.ofList "ln".toList) (RE.ofList "exp".toList))))))
    .wb)

/-- `\[[0-9,\-\s]+\]`. -/
def reI4 : RE :=
  .seq (.lit '[')
    (.seq (RE.plus (.cls fun c => c.isDigit || c = ',' || c = '-' || isPySpace c)) (.lit ']'))

/-- `\bFig\.?\s*\d+|\bTable\s*\d+\(\d+\)` — the source writes the Fig/Table
pattern and `\(\d+\)` as two adjacent string literals with no comma between
them, so Python concatenates them into this single pattern. -/
def reI5 : RE :=
  .alt (.seq .wb (.seq (RE.ofList "Fig".toList) (.seq (RE.opt (.lit '.'))
          (.seq (.star true wsRE) (RE.plus digitRE)))))
       (.seq .wb (.seq (RE.ofList "Table".toList) (.seq (.star true wsRE)
          (.seq (RE.plus digitRE) (.seq (.lit '(') (.seq (RE.plus digitRE) (.lit ')')))))))

/-- `\$.*?\$`. -/
def reJ1 : RE := .seq (.lit '$') (.seq (.star false dotNoNl) (.lit '$'))

/-- `\$\$.*?\$\$`. -/
def reJ2 : RE :=
  .seq (.lit '$') (.seq (.lit '$') (.seq (.star false dotNoNl) (.seq (.lit '$') (.lit '$'))))

/-- `\\\(.+?\\\)`. -/
def reJ3 : RE :=
  .seq (.lit '\\') (.seq (.lit '(') (.seq (RE.plusLazy dotNoNl) (.seq (.lit '\\') (.lit ')'))))

/-- `\\\[.+?\\\]`. -/
def reJ4 : RE :=
  .seq (.lit '\\') (.seq (.lit '[') (.seq (RE.plusLazy dotNoNl) (.seq (.lit '\\') (.lit ']'))))

/-- `[A-Za-z0-9\s]*=[^,.;]+`. -/
def reJ5 : RE :=
  .seq (.star true (.cls fun c => c.isAlpha || c.isDigit || isPySpace c))
    (.seq (.lit '=') (RE.plus (.cls fun c => !(c = ',' || c = '.' || c = ';'))))

/-- `[≈≥≤±⊗∑∫∂∞∇]`. -/
def reK1 : RE := .cls fun c =>
  c = '≈' || c = '≥' || c = '≤' || c = '±' || c = '⊗' ||
  c = '∑' || c = '∫' || c = '∂' || c = '∞' || c = '∇'

/-- `[α-ωΑ-Ω]` (the two Greek codepoint ranges). -/
def reK2 : RE := .cls fun c =>
  (0x3B1 ≤ c.toNat && c.toNat ≤ 0x3C9) || (0x391 ≤ c.toNat && c.toNat ≤ 0x3A9)

/-- `[\^_][{]?[A-Za-z0-9]+[}]?`. -/
def reK3 : RE :=
  .seq (.cls fun c => c = '^' || c = '_')
    (.seq (RE.opt (.lit '\x7b'))
      (.seq (RE.plus (.cls fun c => c.isAlpha || c.isDigit)) (RE.opt (.lit '\x7d'))))

/-- `\d+\s*[\+\-\*/^]\s*\d+`. -/
def reL1 : RE :=
  .seq (RE.plus digitRE) (.seq (.star true wsRE)
    (.seq (.cls fun c => c = '+' || c = '-' || c = '*' || c = '/' || c = '^')
      (.seq (.star true wsRE) (RE.plus digitRE))))

/-- `\d+\.\d+\s*%`. -/
def reL2 : RE :=
  .seq (RE.plus digitRE) (.seq (.lit '.') (.seq (RE.plus digitRE)
    (.seq (.star true wsRE) (.lit '%'))))

/-- `∥[^∥]+∥`. -/
def reL3 : RE := .seq (.lit '∥') (.seq (RE.plus (.cls (· ≠ '∥'))) (.lit '∥'))

/-- `ˆ\s*\w*`. -/
def reL4 : RE := .seq (.lit 'ˆ') (.seq (.star true wsRE) (.star true (.cls isWordChar)))

/-- `[,.:;]`. -/
def punctRE : RE := .cls fun c => c = ',' || c = '.' || c = ':' || c = ';'

/-- `\s*[,.:;]\s*[,.:;]+`. -/
def reL5 : RE := .seq (.star true wsRE) (.seq punctRE (.seq (.star true wsRE) (RE.plus punctRE)))

/-- `^[,.:;]\s*|\s*[,.:;]$` (single-line anchors). -/
def reL6 : RE :=
  .alt (.seq .bos (.seq punctRE (.star true wsRE)))
       (.seq (.star true wsRE) (.seq punctRE .eosNL))

/-- `\s+` (the final whitespace collapse). -/
def reWS : RE := RE.plus wsRE

/-- The `patterns + formula_patterns + symbol_patterns + numeric_patterns`
loop, in source order; every pattern is replaced by `" "`. -/
def cleanLoopPatterns : List RE :=
  [reI1, reI2, reI3, reI4, reI5, reJ1, reJ2, reJ3, reJ4, reJ5,
   reK1, reK2, reK3, reL1, reL2, reL3, reL4, reL5, reL6]

/-- Python `str.strip()` (ASCII whitespace). -/
def stripPy (s : List Char) : List Char :=
  ((s.dropWhile isPySpace).reverse.dropWhile isPySpace).reverse

/-- Steps 1–2 of the per-page loop: the five substitutions before the NFKC
normalization, in source order (`reA` replaced by `""`, the rest by `" "`). -/
def preNorm (t : List Char) : List Char :=
  reSub reE [' '] (reSub reD [' '] (reSub reC [' '] (reSub reB [' '] (reSub reA [] t))))

/-- Steps 4–6, the pattern loop, and the final collapse-and-strip. -/
def postNorm (t : List Char) : List Char :=
  stripPy (reSub reWS [' ']
    (cleanLoopPatterns.foldl (fun acc p => reSub p [' '] acc)
      (reSub reH [' '] (reSub reG [] t))))

/-- One full run of the cleaning pipeline on one page's raw text. -/
def cleanPage (nfkc : List Char → List Char) (t : List Char) : List Char :=
  postNorm (nfkc (preNorm t))

/-! ## Provenance chunking (`chunk_utils.py`) -/

/-- One element of `chunk_text`'s input: `{"text": ..., "page": ...}`. -/
structure PageInput where
  text : List Char
  page : Int
  deriving Repr, DecidableEq

/-- One element of `chunk_text`'s output. -/
structure Chunk where
  text : List Char
  chunk_id : Nat
  page_start : Int
  page_end : Int
  deriving Repr, DecidableEq

/-- Step 1 of `chunk_text`: the page index `[(start_char, end_char, page)]`
built with the running cursor; each page's `end` excludes the appended
newline and the next cursor is `end + 1`. -/
def buildPageRanges : List PageInput → Nat → List (Nat × Nat × Int)
  | [], _ => []
  | p :: ps, cursor =>
    (cursor, cursor + p.text.length, p.page) ::
      buildPageRanges ps (cursor + p.text.length + 1)

/-- Step 1's `full_text`: page texts joined with one newline after each. -/
def buildFullText : List PageInput → List Char
  | [] => []
  | p :: ps => p.text ++ '\n' :: buildFullText ps

/-- Step 3's page lookup for one chunk span: the pages passing the
`not (r[1] < start or r[0] > end)` interval-overlap test. -/
def pagesInSpan (ranges : List (Nat × Nat × Int)) (start stop : Nat) : List Int :=
  (ranges.filter fun r => decide (¬ (r.2.1 < start ∨ r.1 > stop))).map fun r => r.2.2

/-- `min(pages_in_chunk), max(pages_in_chunk)` when non-empty, else the
`(-1, -1)` sentinel. -/
def pageBoundsOf (ranges : List (Nat × Nat × Int)) (start stop : Nat) : Int × Int :=
  match (pagesInSpan ranges start stop).min?, (pagesInSpan ranges start stop).max? with
  | some a, some b => (a, b)
  | _, _ => (-1, -1)

/-- Step 3's loop: walk the splitter's chunks with the running cursor
(`start = cursor; end = cursor + len(text); cursor = end` — the walk does
not account for the overlap), assign page bounds and sequential ids. -/
def assignPages (ranges : List (Nat × Nat × Int)) : Nat → Nat → List (List Char) → List Chunk
  | _, _, [] => []
  | cursor, i, t :: ts =>
    { text := t, chunk_id := i,
      page_start := (pageBoundsOf ranges cursor (cursor + t.length)).1,
      page_end := (pageBoundsOf ranges cursor (cursor + t.length)).2 } ::
      assignPages ranges (cursor + t.length) (i + 1) ts

/-- `chunk_text`, with langchain's `RecursiveCharacterTextSplitter` — an
external library call configured by `chunk_size`/`chunk_overlap` — abstracted
as the `splitter` parameter producing the list of chunk texts.  Theorems
quantifying over `splitter` hold for every configuration and every splitter
behaviour. -/
def chunk_text (splitter : List Char → List (List Char)) (pages : List PageInput) : List Chunk :=
  assignPages (buildPageRanges pages 0) 0 0 (splitter (buildFullText pages))

/-- The chunk character spans as computed by the step-3 cursor walk. -/
def chunkSpans (cursor : Nat) : List (List Char) → List (Nat × Nat)
  | [] => []
  | t :: ts => (cursor, cursor + t.length) :: chunkSpans (cursor + t.length) ts

/-- Part of the spec's splitter description: the positions of the output
pieces are spans whose union covers the whole buffer. -/
def spansCoverBuffer (L : Nat) (spans : List (Nat × Nat)) : Prop :=
  ∀ pos, pos < L → ∃ p ∈ spans, p.1 ≤ pos ∧ pos < p.2

/-- Modelled from the spec (§4.3 step 2), describing the external
`RecursiveCharacterTextSplitter` call that is not part of this repository:
the splitter cuts the buffer into pieces in document order with overlap, so
the pieces correspond to spans of the buffer whose union covers it.  Only
this positional skeleton (piece lengths and coverage) is modelled. -/
def SplitterConforms (buffer : List Char) (out : List (List Char)) : Prop :=
  ∃ spans : List (Nat × Nat),
    spans.map (fun p => p.2 - p.1) = out.map List.length ∧
    spansCoverBuffer buffer.length spans

/-- The pairwise ordering invariant of the page index: later pages start and
end strictly later and carry a page number at least as large. -/
def RgRel (a b : Nat × Nat × Int) : Prop := a.1 < b.1 ∧ a.2.1 < b.2.1 ∧ a.2.2 ≤ b.2.2

/-! ## Concrete chunking inputs for witnesses -/

def c3Pages : List PageInput :=
  [{ text := "aaaa".toList, page := 0 }, { text := "bbbb".toList, page := 1 }]

def c3Split : List Char → List (List Char) := fun l => [l.take 5, l.drop 5]

def c4Pages : List PageInput := [{ text := "ab".toList, page := 0 }]

def c4Split : List Char → List (List Char) := fun l => [l]

/-! ## Concrete oracles for the metadata cascade -/

def c5Crossref : String → Except String CrossrefMsg := fun _ => .error "boom"

def c5Arxiv1 : String → Except String ArxivMsg := fun _ => .error "down"

def c5Arxiv2 : String → Except String ArxivMsg :=
  fun _ => .ok { title := "T", authors := ["A"], year := 2020, abstract := "S" }

def c5Heur1 : String → BibRecord := fun _ => { source := "pdf_heuristic" }

def c5Heur2 : String → BibRecord := fun _ => { source := "other" }

/-! ## Concrete oracle instantiations (used by counterexamples and witnesses) -/

/-- Deps whose collection queries return the given fixed results and whose
providers all answer `"ans"`. -/
def mkDeps (pr : PaperQueryResult) (cq : ChunkQueryResult) : SearchDeps :=
  { embed := fun _ => []
    paperQuery := fun _ _ => pr
    chunkQuery := fun _ _ _ => cq
    providers :=
      { genLocal := fun _ _ => .ok "ans"
        genOpenai := fun _ _ _ => .ok "ans"
        genGemini := fun _ _ _ => .ok "ans"
        genClaude := fun _ _ _ => .ok "ans" } }

/-- Stage-1 result with two papers, used to exhibit the rank-wise join. -/
def prMis : PaperQueryResult :=
  { metadatas :=
      [ { hash := some "p1", paper_id := some "p1", title := some "Paper One", year := some 2001 },
        { hash := some "p2", paper_id := some "p2", title := some "Paper Two", year := some 2002 } ]
    distances := [0, 0] }

/-- Stage-2 result whose single best chunk belongs to the *second* paper. -/
def cqMis : ChunkQueryResult :=
  { documents := ["c2text"]
    metadatas := [{ paper_id := some "p2", chunk_id := some 0, page_start := some 1, page_end := some 1 }]
    distances := [0] }

/-- A one-paper stage-1 result at distance 0. -/
def prOne : PaperQueryResult :=
  { metadatas := [{ hash := some "p1", paper_id := some "p1", title := some "T1", year := some 2020 }]
    distances := [0] }

/-- A one-chunk stage-2 result at cosine distance 2 (maximal). -/
def cqFar : ChunkQueryResult :=
  { documents := ["ctext"]
    metadatas := [{ paper_id := some "p1", chunk_id := some 0, page_start := some 1, page_end := some 1 }]
    distances := [2] }

/-- Two chunks from the single candidate paper, both at distance 0. -/
def cqTwo : ChunkQueryResult :=
  { documents := ["cA", "cB"]
    metadatas :=
      [ { paper_id := some "p1", chunk_id := some 0, page_start := some 1, page_end := some 1 },
        { paper_id := some "p1", chunk_id := some 1, page_start := some 1, page_end := some 2 } ]
    distances := [0, 0] }

/-- An empty stage-1 result (empty corpus). -/
def prEmpty : PaperQueryResult := { metadatas := [], distances := [] }

/-- The result of `search "q" 5 "m" "Local" "" "summary" "" (mkDeps prOne cqFar)`. -/
def rFar : SearchResult :=
  { query := "q"
    sources := [{ chunk_text := "ctext", chunk_id := some 0, paper_id := "p1",
                  paper_title := "T1", paper_year := some 2020, page_start := some 1,
                  page_end := some 1, score := pyRound2 ((1 - 2) * 100) }]
    answer := "ans", model_used := some "m", prompt_mode := some "summary" }

/-- The result of `search "q2" 5 "m" "Local" "" "bogus" "" (mkDeps prOne cqTwo)`:
two stage-2 chunks but only one stage-1 paper, so the zip truncates to one source. -/
def rTrunc : SearchResult :=
  { query := "q2"
    sources := [{ chunk_text := "cA", chunk_id := some 0, paper_id := "p1",
                  paper_title := "T1", paper_year := some 2020, page_start := some 1,
                  page_end := some 1, score := pyRound2 ((1 - 0) * 100) }]
    answer := "ans", model_used := some "m", prompt_mode := some "bogus" }

/-! # Theorems -/

/-! ## Generic list lemmas about the 4-way zip -/

theorem zip4_length {α β γ δ : Type} :
    ∀ (a : List α) (b : List β) (c : List γ) (d : List δ),
    (zip4 a b c d).length = min (min (min a.length b.length) c.length) d.length := by
  intro a
  induction a with
  | nil => intro b c d; simp [zip4]
  | cons x xs ih =>
    intro b c d
    cases b with
    | nil => simp [zip4]
    | cons y ys =>
      cases c with
      | nil => simp [zip4]
      | cons z zs =>
        cases d with
        | nil => simp [zip4]
        | cons w ws =>
          simp only [zip4, List.length_cons, ih]
          omega

theorem zip4_map_fst {α β γ δ : Type} :
    ∀ (a : List α) (b : List β) (c : List γ) (d : List δ),
    (zip4 a b c d).map (fun x => x.1) = a.take (zip4 a b c d).length := by
  intro a
  induction a with
  | nil => intro b c d; simp [zip4]
  | cons x xs ih =>
    intro b c d
    cases b with
    | nil => simp [zip4]
    | cons y ys =>
      cases c with
      | nil => simp [zip4]
      | cons z zs =>
        cases d with
        | nil => simp [zip4]
        | cons w ws => simp [zip4, ih]

theorem zip4_map_fourth {α β γ δ : Type} :
    ∀ (a : List α) (b : List β) (c : List γ) (d : List δ),
    (zip4 a b c d).map (fun x => x.2.2.2) = d.take (zip4 a b c d).length := by
  intro a
  induction a with
  | nil => intro b c d; simp [zip4]
  | cons x xs ih =>
    intro b c d
    cases b with
    | nil => simp [zip4]
    | cons y ys =>
      cases c with
      | nil => simp [zip4]
      | cons z zs =>
        cases d with
        | nil => simp [zip4]
        | cons w ws => simp [zip4, ih]

theorem zip4_mem_fourth {α β γ δ : Type} :
    ∀ (a : List α) (b : List β) (c : List γ) (d : List δ) (x : α × β × γ × δ),
    x ∈ zip4 a b c d → x.2.2.2 ∈ d := by
  intro a
  induction a with
  | nil => intro b c d x hx; simp [zip4] at hx
  | cons p as ih =>
    intro b c d x hx
    cases b with
    | nil => simp [zip4] at hx
    | cons y ys =>
      cases c with
      | nil => simp [zip4] at hx
      | cons z zs =>
        cases d with
        | nil => simp [zip4] at hx
        | cons w ws =>
          simp only [zip4, List.mem_cons] at hx
          rcases hx with h | h
          · subst h; simp
          · exact List.mem_cons_of_mem _ (ih ys zs ws x h)

/-! ## Rounding lemmas -/

theorem le_roundHalfEven {a : ℤ} {x : ℚ} (ha : (a : ℚ) ≤ x) : a ≤ roundHalfEven x := by
  unfold roundHalfEven
  have h1 : a ≤ ⌊x⌋ := Int.le_floor.mpr ha
  split
  · exact h1
  · split
    · omega
    · split <;> omega

theorem roundHalfEven_le {b : ℤ} {x : ℚ} (hb : x ≤ (b : ℚ)) : roundHalfEven x ≤ b := by
  unfold roundHalfEven
  have h1 : ⌊x⌋ ≤ b := by
    have := Int.floor_le_floor hb
    rwa [Int.floor_intCast] at this
  have h2 : (⌊x⌋ : ℚ) ≤ x := Int.floor_le x
  split
  · exact h1
  · rename_i hcond
    push_neg at hcond
    have hlt : (⌊x⌋ : ℚ) < x := by
      have hfr : (0 : ℚ) < x - ⌊x⌋ := lt_of_lt_of_le (by norm_num) hcond
      linarith
    have hltb : ⌊x⌋ < b := by
      have : (⌊x⌋ : ℚ) < (b : ℚ) := lt_of_lt_of_le hlt hb
      exact_mod_cast this
    split
    · omega
    · split <;> omega

theorem pyRound2_bounds {x : ℚ} (h1 : -100 ≤ x) (h2 : x ≤ 100) :
    -100 ≤ pyRound2 x ∧ pyRound2 x ≤ 100 := by
  have ha : ((-10000 : ℤ) : ℚ) ≤ x * 100 := by push_cast; linarith
  have hb : x * 100 ≤ ((10000 : ℤ) : ℚ) := by push_cast; linarith
  have g1 := le_roundHalfEven ha
  have g2 := roundHalfEven_le hb
  unfold pyRound2
  constructor
  · have : ((-10000 : ℤ) : ℚ) ≤ (roundHalfEven (x * 100) : ℚ) := by exact_mod_cast g1
    push_cast at this ⊢
    linarith
  · have : (roundHalfEven (x * 100) : ℚ) ≤ ((10000 : ℤ) : ℚ) := by exact_mod_cast g2
    push_cast at this ⊢
    linarith

theorem pyRound2_intCast (n : ℤ) : pyRound2 ((n : ℤ) : ℚ) = (n : ℚ) := by
  unfold pyRound2 roundHalfEven
  have e : ((n : ℤ) : ℚ) * 100 = ((n * 100 : ℤ) : ℚ) := by push_cast; ring
  rw [e, Int.floor_intCast]
  rw [if_pos (by norm_num)]
  push_cast
  ring

/-! ## Extraction lemma: the sources of a successful non-short-circuited search -/

theorem search_ok_sources
    (query : String) (k : Nat) (model provider api_key prompt_mode custom_prompt : String)
    (deps : SearchDeps) (r : SearchResult)
    (hne : candidatePapers (paperStage deps query k) ≠ [])
    (hok : search query k model provider api_key prompt_mode custom_prompt deps = .ok r) :
    r.sources = buildSources (chunkStage deps query k).documents
      (chunkStage deps query k).metadatas (paperStage deps query k).metadatas
      (chunkStage deps query k).distances := by
  have hfalse : (candidatePapers (paperStage deps query k)).isEmpty = false := by
    simpa [List.isEmpty_iff] using hne
  simp only [search] at hok
  rw [hfalse] at hok
  simp only [Bool.false_eq_true, if_false] at hok
  split at hok
  · exact absurd hok (by simp)
  · split at hok
    · exact absurd hok (by simp)
    · injection hok with h
      rw [← h]

/-- Claim C6: when the stage-1 paper query yields zero candidates, `search`
returns exactly `{query, sources: [], answer: "No relevant papers found."}`.
The conclusion is a fixed value holding for every `deps` — in particular for
every behaviour of every completion provider and every provider string — so
no provider dispatch and no LLM call can influence or be required for it. -/
theorem search_empty_candidates_short_circuit
    (query : String) (k : Nat) (model provider api_key prompt_mode custom_prompt : String)
    (deps : SearchDeps)
    (h : candidatePapers (paperStage deps query k) = []) :
    search query k model provider api_key prompt_mode custom_prompt deps =
      .ok { query := query, sources := [], answer := "No relevant papers found.",
            model_used := none, prompt_mode := none } := by
  unfold search
  simp [h]

/-- Claim C6 witness: a concrete empty-corpus search. -/
theorem search_empty_candidates_short_circuit_witness :
    candidatePapers (paperStage (mkDeps prEmpty cqTwo) "q" 3) = [] ∧
    search "q" 3 "m" "OpenAI" "" "tech" "" (mkDeps prEmpty cqTwo) =
      .ok { query := "q", sources := [], answer := "No relevant papers found.",
            model_used := none, prompt_mode := none } :=
  ⟨rfl, search_empty_candidates_short_circuit "q" 3 "m" "OpenAI" "" "tech" "" _ rfl⟩

/-- Claim C2: for a successful non-short-circuited search, the number of
source records equals `min` of the stage-2 and stage-1 result counts, the
texts concatenated into the context are exactly the first `min` stage-2
documents (chunks beyond the stage-1 count are silently dropped), and —
since the paper query asks for `min(5, k)` results — at most `min 5 k`
sources are returned. -/
theorem search_sources_length
    (query : String) (k : Nat) (model provider api_key prompt_mode custom_prompt : String)
    (deps : SearchDeps) (r : SearchResult)
    (hne : candidatePapers (paperStage deps query k) ≠ [])
    (hcm : (chunkStage deps query k).metadatas.length = (chunkStage deps query k).documents.length)
    (hcd : (chunkStage deps query k).distances.length = (chunkStage deps query k).documents.length)
    (hcap : (paperStage deps query k).metadatas.length ≤ min 5 k)
    (hok : search query k model provider api_key prompt_mode custom_prompt deps = .ok r) :
    r.sources.length =
      min (chunkStage deps query k).documents.length
        (paperStage deps query k).metadatas.length ∧
    r.sources.map SourceRec.chunk_text =
      (chunkStage deps query k).documents.take
        (min (chunkStage deps query k).documents.length
          (paperStage deps query k).metadatas.length) ∧
    r.sources.length ≤ min 5 k := by
  have hs := search_ok_sources query k model provider api_key prompt_mode custom_prompt
    deps r hne hok
  have hlen : r.sources.length =
      min (chunkStage deps query k).documents.length
        (paperStage deps query k).metadatas.length := by
    rw [hs]
    unfold buildSources
    rw [List.length_map, zip4_length]
    omega
  refine ⟨hlen, ?_, ?_⟩
  · rw [hs]
    unfold buildSources
    rw [List.map_map]
    have e : (SourceRec.chunk_text ∘ fun x : String × ChunkMeta × PaperMeta × ℚ =>
        ({ chunk_text := x.1, chunk_id := x.2.1.chunk_id,
           paper_id := x.2.2.1.paper_id.getD "", paper_title := x.2.2.1.title.getD "",
           paper_year := x.2.2.1.year, page_start := x.2.1.page_start,
           page_end := x.2.1.page_end,
           score := pyRound2 ((1 - x.2.2.2) * 100) } : SourceRec)) =
        fun x : String × ChunkMeta × PaperMeta × ℚ => x.1 := rfl
    rw [e, zip4_map_fst]
    congr 1
    rw [zip4_length]
    omega
  · omega

/-- Claim C2 witness: a concrete run with one stage-1 paper and two stage-2
chunks yields exactly one source whose text is the first stage-2 document. -/
theorem search_sources_length_witness :
    rTrunc.sources.length =
      min (chunkStage (mkDeps prOne cqTwo) "q2" 5).documents.length
        (paperStage (mkDeps prOne cqTwo) "q2" 5).metadatas.length ∧
    rTrunc.sources.map SourceRec.chunk_text =
      (chunkStage (mkDeps prOne cqTwo) "q2" 5).documents.take
        (min (chunkStage (mkDeps prOne cqTwo) "q2" 5).documents.length
          (paperStage (mkDeps prOne cqTwo) "q2" 5).metadatas.length) ∧
    rTrunc.sources.length ≤ min 5 5 :=
  search_sources_length "q2" 5 "m" "Local" "" "bogus" "" (mkDeps prOne cqTwo) rTrunc
    (by decide) (by decide) (by decide) (by decide) rfl

/-- Claim C8 (corrected): every source's score is
`round((1 − distance) * 100, 2)`, and when all stage-2 distances lie in
`[0, 2]` every score lies in `[-100, 100]` (not `[0, 100]` as claimed: a
distance above 1 yields a negative similarity and hence a negative score). -/
theorem search_score_formula_and_range
    (query : String) (k : Nat) (model provider api_key prompt_mode custom_prompt : String)
    (deps : SearchDeps) (r : SearchResult)
    (hne : candidatePapers (paperStage deps query k) ≠ [])
    (hok : search query k model provider api_key prompt_mode custom_prompt deps = .ok r) :
    r.sources.map SourceRec.score =
      ((chunkStage deps query k).distances.take r.sources.length).map
        (fun d => pyRound2 ((1 - d) * 100)) ∧
    ((∀ d ∈ (chunkStage deps query k).distances, 0 ≤ d ∧ d ≤ 2) →
      ∀ s ∈ r.sources, -100 ≤ s.score ∧ s.score ≤ 100) := by
  have hs := search_ok_sources query k model provider api_key prompt_mode custom_prompt
    deps r hne hok
  constructor
  · rw [hs]
    unfold buildSources
    rw [List.length_map, List.map_map]
    have e : (SourceRec.score ∘ fun x : String × ChunkMeta × PaperMeta × ℚ =>
        ({ chunk_text := x.1, chunk_id := x.2.1.chunk_id,
           paper_id := x.2.2.1.paper_id.getD "", paper_title := x.2.2.1.title.getD "",
           paper_year := x.2.2.1.year, page_start := x.2.1.page_start,
           page_end := x.2.1.page_end,
           score := pyRound2 ((1 - x.2.2.2) * 100) } : SourceRec)) =
        (fun d : ℚ => pyRound2 ((1 - d) * 100)) ∘
          (fun x : String × ChunkMeta × PaperMeta × ℚ => x.2.2.2) := rfl
    rw [e, ← List.map_map, zip4_map_fourth]
  · intro hd s hspos
    rw [hs] at hspos
    unfold buildSources at hspos
    rcases List.mem_map.mp hspos with ⟨x, hx, hxe⟩
    have hmem := zip4_mem_fourth _ _ _ _ x hx
    rcases hd _ hmem with ⟨h0, h2⟩
    have hb1 : -100 ≤ (1 - x.2.2.2) * 100 := by linarith
    have hb2 : (1 - x.2.2.2) * 100 ≤ 100 := by linarith
    have hbd := pyRound2_bounds hb1 hb2
    rw [← hxe]
    simpa using hbd

/-- Claim C8 witness: the formula and amended range at a concrete call. -/
theorem search_score_formula_and_range_witness :
    rFar.sources.map SourceRec.score =
      ((chunkStage (mkDeps prOne cqFar) "q" 5).distances.take rFar.sources.length).map
        (fun d => pyRound2 ((1 - d) * 100)) ∧
    (∀ s ∈ rFar.sources, -100 ≤ s.score ∧ s.score ≤ 100) := by
  have h := search_score_formula_and_range "q" 5 "m" "Local" "" "summary" ""
    (mkDeps prOne cqFar) rFar (by decide) rfl
  refine ⟨h.1, h.2 ?_⟩
  intro d hd
  have hd2 : d = 2 := by
    simpa [chunkStage, mkDeps, cqFar, candidatePapers, paperStage, prOne] using hd
  rw [hd2]
  norm_num

/-- Claim C8 counterexample: at cosine distance 2 (which lies in `[0, 2]`)
the returned score is `-100`, which is not in `[0, 100]`. -/
theorem search_score_outside_claimed_range :
    (chunkStage (mkDeps prOne cqFar) "q" 5).distances = [2] ∧
    ((0:ℚ) ≤ 2 ∧ (2:ℚ) ≤ 2) ∧
    ((search "q" 5 "m" "Local" "" "summary" "" (mkDeps prOne cqFar)).toOption.map
      fun r => r.sources.map SourceRec.score) = some [pyRound2 ((1 - 2) * 100)] ∧
    pyRound2 ((1 - 2) * 100) = -100 ∧
    ¬ ((0:ℚ) ≤ -100) := by
  refine ⟨rfl, ⟨by norm_num, le_refl _⟩, rfl, ?_, by norm_num⟩
  have e : ((1:ℚ) - 2) * 100 = ((-100 : ℤ) : ℚ) := by norm_num
  rw [e, pyRound2_intCast]
  norm_num

/-- Claim C1 (code bug): `search` pairs the i-th ranked chunk with the i-th
ranked stage-1 paper's metadata (`zip(chunks, chunk_matas, metas, scores)`),
so a chunk whose own `paper_id` is `"p2"` is attributed the `paper_id`,
title and year of `"p1"`, the different paper that happens to share its rank. -/
theorem search_title_misattribution :
    ((search "q" 5 "m" "Local" "" "summary" "" (mkDeps prMis cqMis)).toOption.map
      fun r => r.sources.map fun s => (s.chunk_text, s.paper_id, s.paper_title, s.paper_year)) =
      some [("c2text", "p1", "Paper One", some 2001)] ∧
    cqMis.metadatas.map ChunkMeta.paper_id = [some "p2"] ∧
    ("p1" : String) ≠ "p2" :=
  ⟨rfl, rfl, by decide⟩

/-! ## Lemmas about the double-newline split -/

theorem splitParas_ne_nil : ∀ t : List Char, splitParas t ≠ [] := by
  intro t
  induction t using splitParas.induct with
  | case1 => simp [splitParas]
  | case2 rest ih => simp [splitParas]
  | case3 c rest hne h tl hsp ih =>
    rw [splitParas.eq_3 c rest hne, hsp]
    simp
  | case4 c rest hne hsp ih =>
    rw [splitParas.eq_3 c rest hne, hsp]
    simp

theorem containsDNl_iff_findDNlIdx : ∀ t : List Char,
    containsDNl t = (findDNlIdx t).isSome := by
  intro t
  induction t using splitParas.induct with
  | case1 => simp [containsDNl, findDNlIdx]
  | case2 rest ih => simp [containsDNl, findDNlIdx]
  | case3 c rest hne h tl hsp ih =>
    rw [containsDNl.eq_2 c rest hne, findDNlIdx.eq_2 c rest hne, ih]
    cases findDNlIdx rest <;> simp
  | case4 c rest hne hsp ih =>
    rw [containsDNl.eq_2 c rest hne, findDNlIdx.eq_2 c rest hne, ih]
    cases findDNlIdx rest <;> simp

theorem splitParas_head : ∀ t : List Char,
    (splitParas t).head? = some (match findDNlIdx t with
      | none => t
      | some i => t.take i) := by
  intro t
  induction t using splitParas.induct with
  | case1 => simp [splitParas, findDNlIdx]
  | case2 rest ih => simp [splitParas, findDNlIdx]
  | case3 c rest hne h tl hsp ih =>
    rw [splitParas.eq_3 c rest hne, findDNlIdx.eq_2 c rest hne, hsp]
    rw [hsp] at ih
    simp only [List.head?_cons, Option.some.injEq] at ih ⊢
    cases hf : findDNlIdx rest with
    | none => simp at ih ⊢; simp [ih, hf]
    | some i => simp at ih ⊢; simp [ih, hf]
  | case4 c rest hne hsp ih =>
    exact absurd hsp (splitParas_ne_nil rest)

theorem splitParas_get1 : ∀ t : List Char, ∀ i : Nat, findDNlIdx t = some i →
    (splitParas t).get? 1 = (splitParas (t.drop (i + 2))).head? := by
  intro t
  induction t using splitParas.induct with
  | case1 => intro i hi; simp [findDNlIdx] at hi
  | case2 rest ih =>
    intro i hi
    simp only [findDNlIdx] at hi
    injection hi with hi0
    subst hi0
    simp only [splitParas, Nat.zero_add, List.drop_succ_cons, List.drop_zero]
    cases splitParas rest <;> simp
  | case3 c rest hne h tl hsp ih =>
    intro i hi
    rw [findDNlIdx.eq_2 c rest hne] at hi
    cases hf : findDNlIdx rest with
    | none => rw [hf] at hi; simp at hi
    | some j =>
      rw [hf] at hi
      simp only [Option.map_some', Option.some.injEq] at hi
      subst hi
      rw [splitParas.eq_3 c rest hne, hsp]
      have hih := ih j hf
      rw [hsp] at hih
      simpa using hih
  | case4 c rest hne hsp ih =>
    exact absurd hsp (splitParas_ne_nil rest)

theorem fallbackAbstract_eq_secondSegment (t : List Char) :
    fallbackAbstract t = specSecondSegmentAbstract t := by
  unfold fallbackAbstract specSecondSegmentAbstract
  cases hf : findDNlIdx t with
  | none =>
    have hc : containsDNl t = false := by
      rw [containsDNl_iff_findDNlIdx, hf, Option.isSome_none]
    simp [hc]
  | some i =>
    have hc : containsDNl t = true := by
      rw [containsDNl_iff_findDNlIdx, hf, Option.isSome_some]
    rw [if_pos hc, splitParas_get1 t i hf, splitParas_head (t.drop (i + 2))]
    cases hdf : findDNlIdx (t.drop (i + 2)) <;> simp [hdf]

/-- Claim C7 (corrected): when the resolved metadata lacks an abstract
(absent or empty), the substitute abstract `add_paper` embeds and stores is
the segment **between the first and second double newlines** of page-one
text — `split("\n\n")[1]`, not the first paragraph — or the first 1000
characters when no double newline exists. -/
theorem substitute_abstract_second_segment
    (metaAbstract : Option String) (t : List Char)
    (h : metaAbstract = none ∨ metaAbstract = some "") :
    chooseAbstract metaAbstract t = specSecondSegmentAbstract t := by
  rcases h with h | h <;> subst h <;>
    simp [chooseAbstract, fallbackAbstract_eq_secondSegment t]

/-- Claim C7 witness: concrete evaluation of the amended description. -/
theorem substitute_abstract_second_segment_witness :
    chooseAbstract none "Title\n\nBodyA\n\nBodyB".toList =
      specSecondSegmentAbstract "Title\n\nBodyA\n\nBodyB".toList ∧
    specSecondSegmentAbstract "Title\n\nBodyA\n\nBodyB".toList = "BodyA".toList :=
  ⟨substitute_abstract_second_segment none _ (Or.inl rfl), by decide⟩

/-- Claim C7 counterexample: on `"Title\n\nBodyA\n\nBodyB"` with no resolved
abstract, the code substitutes `"BodyA"` (the second split segment), while
the claim's "first paragraph" reading would give `"Title"`. -/
theorem substitute_abstract_not_first_paragraph :
    chooseAbstract none "Title\n\nBodyA\n\nBodyB".toList = "BodyA".toList ∧
    specFirstParagraphAbstract "Title\n\nBodyA\n\nBodyB".toList = "Title".toList ∧
    "BodyA".toList ≠ "Title".toList := by
  refine ⟨by decide, by decide, by decide⟩

/-! ## Lemmas about the custom-prompt formatter -/

theorem pyFormatRun_context_field (ctx q : String) (rest : List Char) :
    pyFormatRun ctx q .plain ("{context}".toList ++ rest) =
      (pyFormatRun ctx q .plain rest).map (ctx.toList ++ ·) := rfl

theorem pyFormatRun_query_field (ctx q : String) (rest : List Char) :
    pyFormatRun ctx q .plain ("{query}".toList ++ rest) =
      (pyFormatRun ctx q .plain rest).map (q.toList ++ ·) := rfl

theorem pyFormatRun_append_nobrace (ctx q : String) :
    ∀ l1 l2 : List Char, (∀ c ∈ l1, c ≠ '\x7b' ∧ c ≠ '\x7d') →
    pyFormatRun ctx q .plain (l1 ++ l2) = (pyFormatRun ctx q .plain l2).map (l1 ++ ·) := by
  intro l1
  induction l1 with
  | nil =>
    intro l2 h
    cases hr : pyFormatRun ctx q .plain l2 <;> simp [Except.map, hr]
  | cons c cs ih =>
    intro l2 h
    have hc := h c (by simp)
    simp only [List.cons_append, pyFormatRun, if_neg hc.1, if_neg hc.2, List.append_eq]
    rw [ih l2 (fun x hx => h x (by simp [hx]))]
    cases hr : pyFormatRun ctx q .plain l2 <;> simp [Except.map, hr]

theorem pyFormatRun_nobrace (ctx q : String) (l : List Char)
    (h : ∀ c ∈ l, c ≠ '\x7b' ∧ c ≠ '\x7d') :
    pyFormatRun ctx q .plain l = .ok l := by
  have happ := pyFormatRun_append_nobrace ctx q l [] h
  simpa [pyFormatRun, Except.map] using happ

/-- Claim C10 (corrected): in `custom` mode the caller's template goes
through `str.format`; when the `context`/`query` placeholders are present
(with no other replacement fields) they are substituted, and a template that
contains no braces at all passes through verbatim.  (A template containing
any *other* replacement field instead raises — see the counterexample — so
"absent placeholders ⇒ verbatim and no failure" only holds for brace-free
templates.) -/
theorem custom_prompt_substitution (ctx q tpl a b d : String)
    (htpl : ∀ c ∈ tpl.toList, c ≠ '\x7b' ∧ c ≠ '\x7d')
    (ha : ∀ c ∈ a.toList, c ≠ '\x7b' ∧ c ≠ '\x7d')
    (hb : ∀ c ∈ b.toList, c ≠ '\x7b' ∧ c ≠ '\x7d')
    (hd : ∀ c ∈ d.toList, c ≠ '\x7b' ∧ c ≠ '\x7d') :
    composePrompt "custom" tpl ctx q = .ok tpl ∧
    composePrompt "custom" (a ++ "{context}" ++ b ++ "{query}" ++ d) ctx q =
      .ok (a ++ ctx ++ b ++ q ++ d) := by
  constructor
  · show pyFormat tpl ctx q = .ok tpl
    unfold pyFormat
    rw [pyFormatRun_nobrace ctx q tpl.toList htpl]
    rfl
  · show pyFormat (a ++ "{context}" ++ b ++ "{query}" ++ d) ctx q = _
    unfold pyFormat
    have e : (a ++ "{context}" ++ b ++ "{query}" ++ d).toList =
        a.toList ++ ("{context}".toList ++ (b.toList ++ ("{query}".toList ++ d.toList))) := by
      show a.toList ++ "{context}".toList ++ b.toList ++ "{query}".toList ++ d.toList = _
      simp [List.append_assoc]
    rw [e, pyFormatRun_append_nobrace ctx q a.toList _ ha]
    rw [pyFormatRun_context_field ctx q (b.toList ++ ("{query}".toList ++ d.toList))]
    rw [pyFormatRun_append_nobrace ctx q b.toList _ hb]
    rw [pyFormatRun_query_field ctx q d.toList]
    rw [pyFormatRun_nobrace ctx q d.toList hd]
    simp only [Except.map]
    congr 1
    conv_rhs => rw [show (a ++ ctx ++ b ++ q ++ d) =
      String.mk (a ++ ctx ++ b ++ q ++ d).toList from rfl]
    congr 1
    show a.toList ++ (ctx.toList ++ (b.toList ++ (q.toList ++ d.toList))) =
      a.toList ++ ctx.toList ++ b.toList ++ q.toList ++ d.toList
    simp [List.append_assoc]

/-- Claim C10 witness: concrete substitution and concrete verbatim pass-through. -/
theorem custom_prompt_substitution_witness :
    composePrompt "custom" "plain template, no fields" "C" "Q" =
      .ok "plain template, no fields" ∧
    composePrompt "custom" ("Use " ++ "{context}" ++ " for " ++ "{query}" ++ "!") "C" "Q" =
      .ok ("Use " ++ "C" ++ " for " ++ "Q" ++ "!") :=
  have h := custom_prompt_substitution "C" "Q" "plain template, no fields" "Use " " for " "!"
    (by decide) (by decide) (by decide) (by decide)
  ⟨h.1, h.2⟩

/-- Claim C10 counterexample: a custom template in which the `context` and
`query` placeholders are absent but which contains another replacement field
is *not* used verbatim — `str.format` raises `KeyError` and the search call
fails. -/
theorem custom_prompt_unknown_field_fails :
    ¬ ("{context}".toList <:+: "Summarize {foo} please".toList) ∧
    ¬ ("{query}".toList <:+: "Summarize {foo} please".toList) ∧
    search "q" 5 "m" "Local" "" "custom" "Summarize {foo} please" (mkDeps prOne cqTwo) =
      .error "KeyError: foo" :=
  ⟨by decide, by decide, rfl⟩

/-- Claim C5: a first page whose text contains both a DOI pattern and an
arXiv pattern takes only the DOI path — the result equals
`fetch_metadata_from_doi` of the matched DOI and is unchanged under every
arXiv-service and heuristic behaviour — and when the registry lookup raises,
the stage returns the error-tagged record `{doi, source: "crossref_error",
error}` without raising and without falling through. -/
theorem extract_metadata_doi_short_circuit
    (t : String) (d : List Char)
    (hd : doiSearch t.toList = some d)
    (ha : arxivSearch t.toList ≠ none)
    (crossref : String → Except String CrossrefMsg)
    (arxivSvc arxivSvc2 : String → Except String ArxivMsg)
    (heuristic heuristic2 : String → BibRecord) :
    extract_pdf_metadata crossref arxivSvc heuristic t =
      fetch_metadata_from_doi crossref (String.mk d) ∧
    extract_pdf_metadata crossref arxivSvc heuristic t =
      extract_pdf_metadata crossref arxivSvc2 heuristic2 t ∧
    (∀ e, crossref (String.mk d) = .error e →
      extract_pdf_metadata crossref arxivSvc heuristic t =
        { doi := some (String.mk d), source := "crossref_error", error := some e }) := by
  have hmain : extract_pdf_metadata crossref arxivSvc heuristic t =
      fetch_metadata_from_doi crossref (String.mk d) := by
    unfold extract_pdf_metadata
    rw [hd]
  have hmain2 : extract_pdf_metadata crossref arxivSvc2 heuristic2 t =
      fetch_metadata_from_doi crossref (String.mk d) := by
    unfold extract_pdf_metadata
    rw [hd]
  refine ⟨hmain, by rw [hmain, hmain2], ?_⟩
  intro e he
  rw [hmain]
  unfold fetch_metadata_from_doi
  rw [he]

/-- Claim C5 witness: a concrete first page carrying both identifiers, with
a failing registry and differing arXiv/heuristic oracles. -/
theorem extract_metadata_doi_short_circuit_witness :
    extract_pdf_metadata c5Crossref c5Arxiv1 c5Heur1 "a 10.1234/ab arXiv:2101.12345" =
      fetch_metadata_from_doi c5Crossref (String.mk "10.1234/ab".toList) ∧
    extract_pdf_metadata c5Crossref c5Arxiv1 c5Heur1 "a 10.1234/ab arXiv:2101.12345" =
      extract_pdf_metadata c5Crossref c5Arxiv2 c5Heur2 "a 10.1234/ab arXiv:2101.12345" ∧
    extract_pdf_metadata c5Crossref c5Arxiv1 c5Heur1 "a 10.1234/ab arXiv:2101.12345" =
      { doi := some (String.mk "10.1234/ab".toList), source := "crossref_error",
        error := some "boom" } :=
  have h := extract_metadata_doi_short_circuit "a 10.1234/ab arXiv:2101.12345"
    "10.1234/ab".toList (by decide) (by decide) c5Crossref c5Arxiv1 c5Arxiv2 c5Heur1 c5Heur2
  ⟨h.1, h.2.1, h.2.2 "boom" rfl⟩

/-- Claim C9 (code bug): the cleaning pipeline is not idempotent.  On the
page text `"[1[2]3]"` one application yields `"[1 3]"` — the inner citation
marker `[2]` is removed, and `re.sub` does not rescan replaced text — but a
second application removes the newly formed citation marker `[1 3]` and
yields `""`.  `nfkc` abstracts `unicodedata.normalize("NFKC", ·)`; the
hypotheses record that it is the identity on these pure-ASCII strings. -/
theorem cleanPage_not_idempotent (nfkc : List Char → List Char)
    (h1 : nfkc "[1[2]3]".toList = "[1[2]3]".toList)
    (h2 : nfkc "[1 3]".toList = "[1 3]".toList) :
    cleanPage nfkc "[1[2]3]".toList = "[1 3]".toList ∧
    cleanPage nfkc (cleanPage nfkc "[1[2]3]".toList) = [] ∧
    cleanPage nfkc (cleanPage nfkc "[1[2]3]".toList) ≠ cleanPage nfkc "[1[2]3]".toList := by
  have first : cleanPage nfkc "[1[2]3]".toList = "[1 3]".toList := by
    unfold cleanPage
    rw [show preNorm "[1[2]3]".toList = "[1[2]3]".toList from by decide, h1]
    decide
  have second : cleanPage nfkc (cleanPage nfkc "[1[2]3]".toList) = [] := by
    rw [first]
    unfold cleanPage
    rw [show preNorm "[1 3]".toList = "[1 3]".toList from by decide, h2]
    decide
  refine ⟨first, second, ?_⟩
  rw [second, first]
  decide

/-- Claim C9 witness: the non-idempotence at the concrete input with the
NFKC stage instantiated to the identity function. -/
theorem cleanPage_not_idempotent_witness :
    cleanPage id "[1[2]3]".toList = "[1 3]".toList ∧
    cleanPage id (cleanPage id "[1[2]3]".toList) = [] ∧
    cleanPage id (cleanPage id "[1[2]3]".toList) ≠ cleanPage id "[1[2]3]".toList :=
  cleanPage_not_idempotent id rfl rfl

/-! ## Coverage of the chunk spans (claim C4) -/

theorem mem_foldr_union (spans : List (Nat × Nat)) (x : Nat) :
    x ∈ spans.foldr (fun p acc => Finset.Ico p.1 p.2 ∪ acc) ∅ ↔
      ∃ p ∈ spans, p.1 ≤ x ∧ x < p.2 := by
  induction spans with
  | nil => simp
  | cons p ps ih => simp [Finset.mem_union, Finset.mem_Ico, ih]

theorem card_foldr_union_le (spans : List (Nat × Nat)) :
    (spans.foldr (fun p acc => Finset.Ico p.1 p.2 ∪ acc) ∅).card ≤
      (spans.map fun p => p.2 - p.1).sum := by
  induction spans with
  | nil => simp
  | cons p ps ih =>
    simp only [List.foldr_cons, List.map_cons, List.sum_cons]
    have h1 := Finset.card_union_le (Finset.Ico p.1 p.2)
      (ps.foldr (fun p acc => Finset.Ico p.1 p.2 ∪ acc) ∅)
    have h2 : (Finset.Ico p.1 p.2).card = p.2 - p.1 := Nat.card_Ico p.1 p.2
    omega

theorem length_le_sum_of_cover {L : Nat} {spans : List (Nat × Nat)}
    (h : spansCoverBuffer L spans) :
    L ≤ (spans.map fun p => p.2 - p.1).sum := by
  have hsub : Finset.range L ⊆ spans.foldr (fun p acc => Finset.Ico p.1 p.2 ∪ acc) ∅ := by
    intro x hx
    rw [Finset.mem_range] at hx
    rw [mem_foldr_union]
    exact h x hx
  have hcard := Finset.card_le_card hsub
  rw [Finset.card_range] at hcard
  exact le_trans hcard (card_foldr_union_le spans)

theorem chunkSpans_cover : ∀ (ts : List (List Char)) (c pos : Nat),
    c ≤ pos → pos < c + (ts.map List.length).sum →
    ∃ sp ∈ chunkSpans c ts, sp.1 ≤ pos ∧ pos < sp.2 := by
  intro ts
  induction ts with
  | nil =>
    intro c pos h1 h2
    simp at h2
    omega
  | cons t ts ih =>
    intro c pos h1 h2
    by_cases hc : pos < c + t.length
    · exact ⟨(c, c + t.length), by simp [chunkSpans], h1, hc⟩
    · push_neg at hc
      simp only [List.map_cons, List.sum_cons] at h2
      obtain ⟨sp, hsp, hle, hlt⟩ := ih (c + t.length) pos hc (by omega)
      exact ⟨sp, by simp [chunkSpans, hsp], hle, hlt⟩

theorem assignPages_map_text (ranges : List (Nat × Nat × Int)) :
    ∀ (ts : List (List Char)) (c i : Nat),
    (assignPages ranges c i ts).map Chunk.text = ts := by
  intro ts
  induction ts with
  | nil => intro c i; simp [assignPages]
  | cons t ts ih => intro c i; simp [assignPages, ih]

/-- Claim C4: for a non-empty document, when the splitter's output conforms
to the spec's description (its pieces are buffer spans covering the whole
buffer), the union of the chunk character spans computed by `chunk_text`'s
cursor walk covers every position of the concatenated buffer. -/
theorem chunk_text_span_coverage
    (splitter : List Char → List (List Char)) (pages : List PageInput)
    (hne : pages ≠ []) (hpt : ∀ p ∈ pages, p.text ≠ [])
    (hconf : SplitterConforms (buildFullText pages) (splitter (buildFullText pages)))
    (pos : Nat) (hpos : pos < (buildFullText pages).length) :
    ∃ sp ∈ chunkSpans 0 ((chunk_text splitter pages).map Chunk.text),
      sp.1 ≤ pos ∧ pos < sp.2 := by
  obtain ⟨spans, hlen, hcov⟩ := hconf
  have hsum : (buildFullText pages).length ≤
      ((splitter (buildFullText pages)).map List.length).sum := by
    have h1 := length_le_sum_of_cover hcov
    rwa [hlen] at h1
  rw [chunk_text, assignPages_map_text]
  exact chunkSpans_cover _ 0 pos (Nat.zero_le _) (by omega)

/-- Claim C4 witness: a one-page document with an identity splitter; the
chunk spans cover position 2 (the final newline of the buffer). -/
theorem chunk_text_span_coverage_witness :
    c4Pages ≠ [] ∧ (∀ p ∈ c4Pages, p.text ≠ []) ∧
    (∃ sp ∈ chunkSpans 0 ((chunk_text c4Split c4Pages).map Chunk.text),
      sp.1 ≤ 2 ∧ 2 < sp.2) :=
  ⟨by decide, by decide,
    chunk_text_span_coverage c4Split c4Pages (by decide) (by decide)
      ⟨[(0, 3)], by decide, fun pos h => ⟨(0, 3), by simp, by omega, by simpa using h⟩⟩
      2 (by decide)⟩

/-! ## Monotone pagination (claim C3) -/

theorem int_min?_spec : ∀ {l : List Int}, l ≠ [] →
    ∃ m, l.min? = some m ∧ m ∈ l ∧ ∀ x ∈ l, m ≤ x := by
  intro l h
  cases l with
  | nil => exact absurd rfl h
  | cons a as =>
    have he : (a :: as).min? = some (as.foldl min a) := rfl
    refine ⟨as.foldl min a, he, ?_⟩
    haveI : Std.Antisymm (fun x1 x2 : Int => x1 ≤ x2) :=
      ⟨fun h1 h2 => le_antisymm h1 h2⟩
    exact (List.min?_eq_some_iff (fun x => le_refl x) (fun x y => min_choice x y)
      (fun x y z => le_min_iff)).mp he

theorem int_max?_spec : ∀ {l : List Int}, l ≠ [] →
    ∃ m, l.max? = some m ∧ m ∈ l ∧ ∀ x ∈ l, x ≤ m := by
  intro l h
  cases l with
  | nil => exact absurd rfl h
  | cons a as =>
    have he : (a :: as).max? = some (as.foldl max a) := rfl
    refine ⟨as.foldl max a, he, ?_⟩
    haveI : Std.Antisymm (fun x1 x2 : Int => x1 ≤ x2) :=
      ⟨fun h1 h2 => le_antisymm h1 h2⟩
    exact (List.max?_eq_some_iff (fun x => le_refl x) (fun x y => max_choice x y)
      (fun x y z => max_le_iff)).mp he

theorem mem_pagesInSpan {ranges : List (Nat × Nat × Int)} {s e : Nat} {x : Int} :
    x ∈ pagesInSpan ranges s e ↔
      ∃ r ∈ ranges, ¬ (r.2.1 < s ∨ r.1 > e) ∧ r.2.2 = x := by
  unfold pagesInSpan
  simp only [List.mem_map, List.mem_filter, decide_eq_true_eq]
  constructor
  · rintro ⟨r, ⟨hr, hov⟩, hx⟩
    exact ⟨r, hr, hov, hx⟩
  · rintro ⟨r, hr, hov, hx⟩
    exact ⟨r, ⟨hr, hov⟩, hx⟩

theorem pagesInSpan_ne_of_bounds {ranges : List (Nat × Nat × Int)} {s e : Nat}
    (h : ¬ ((pageBoundsOf ranges s e).1 = -1 ∧ (pageBoundsOf ranges s e).2 = -1)) :
    pagesInSpan ranges s e ≠ [] := by
  intro hemp
  apply h
  unfold pageBoundsOf
  rw [hemp]
  exact ⟨rfl, rfl⟩

theorem pairwise_mem_order {α : Type} {R : α → α → Prop} :
    ∀ {l : List α}, List.Pairwise R l → ∀ {a b : α}, a ∈ l → b ∈ l →
      a = b ∨ R a b ∨ R b a := by
  intro l h
  induction h with
  | nil => intro a b ha _; simp at ha
  | cons hr _ ih =>
    intro a b ha hb
    rcases List.mem_cons.mp ha with ha | ha <;> rcases List.mem_cons.mp hb with hb | hb
    · left; rw [ha, hb]
    · right; left; rw [ha]; exact hr b hb
    · right; right; rw [hb]; exact hr a ha
    · exact ih ha hb

theorem buildPageRanges_mem : ∀ (ps : List PageInput) (c : Nat) (r : Nat × Nat × Int),
    r ∈ buildPageRanges ps c → c ≤ r.1 ∧ r.1 ≤ r.2.1 := by
  intro ps
  induction ps with
  | nil => intro c r hr; simp [buildPageRanges] at hr
  | cons p ps ih =>
    intro c r hr
    simp only [buildPageRanges, List.mem_cons] at hr
    rcases hr with h | h
    · subst h; exact ⟨le_refl c, by simp⟩
    · have := ih _ _ h; omega

theorem buildPageRanges_mem_page : ∀ (ps : List PageInput) (c : Nat) (r : Nat × Nat × Int),
    r ∈ buildPageRanges ps c → ∃ p ∈ ps, r.2.2 = p.page := by
  intro ps
  induction ps with
  | nil => intro c r hr; simp [buildPageRanges] at hr
  | cons p ps ih =>
    intro c r hr
    simp only [buildPageRanges, List.mem_cons] at hr
    rcases hr with h | h
    · exact ⟨p, by simp, by rw [h]⟩
    · obtain ⟨q, hq, hqe⟩ := ih _ _ h
      exact ⟨q, List.mem_cons_of_mem _ hq, hqe⟩

theorem buildPageRanges_pairwise :
    ∀ (ps : List PageInput), List.Pairwise (fun p q => p.page ≤ q.page) ps →
    ∀ c, List.Pairwise RgRel (buildPageRanges ps c) := by
  intro ps
  induction ps with
  | nil => intro _ c; simp [buildPageRanges]
  | cons p ps ih =>
    intro hp c
    rw [List.pairwise_cons] at hp
    simp only [buildPageRanges]
    rw [List.pairwise_cons]
    constructor
    · intro r hr
      have hmem := buildPageRanges_mem ps _ r hr
      obtain ⟨q, hq, hqe⟩ := buildPageRanges_mem_page ps _ r hr
      show c < r.1 ∧ c + p.text.length < r.2.1 ∧ p.page ≤ r.2.2
      refine ⟨by omega, by omega, ?_⟩
      rw [hqe]
      exact hp.1 q hq
    · exact ih hp.2 _

theorem pageBounds_mono {ranges : List (Nat × Nat × Int)}
    (hpw : List.Pairwise RgRel ranges)
    {s1 e1 s2 e2 : Nat} (hs : s1 ≤ s2) (he : e1 ≤ e2)
    (h1 : pagesInSpan ranges s1 e1 ≠ []) (h2 : pagesInSpan ranges s2 e2 ≠ []) :
    (pageBoundsOf ranges s1 e1).1 ≤ (pageBoundsOf ranges s2 e2).1 ∧
    (pageBoundsOf ranges s1 e1).2 ≤ (pageBoundsOf ranges s2 e2).2 := by
  obtain ⟨m1, hm1eq, hm1mem, hm1le⟩ := int_min?_spec h1
  obtain ⟨M1, hM1eq, hM1mem, hM1ge⟩ := int_max?_spec h1
  obtain ⟨m2, hm2eq, hm2mem, hm2le⟩ := int_min?_spec h2
  obtain ⟨M2, hM2eq, hM2mem, hM2ge⟩ := int_max?_spec h2
  have e1b : pageBoundsOf ranges s1 e1 = (m1, M1) := by
    unfold pageBoundsOf; rw [hm1eq, hM1eq]
  have e2b : pageBoundsOf ranges s2 e2 = (m2, M2) := by
    unfold pageBoundsOf; rw [hm2eq, hM2eq]
  rw [e1b, e2b]
  constructor
  · -- m1 ≤ m2: take the range witnessing m2
    obtain ⟨r2, hr2mem, hr2ov, hr2pg⟩ := mem_pagesInSpan.mp hm2mem
    by_cases hcase : ¬ (r2.2.1 < s1 ∨ r2.1 > e1)
    · have hx : r2.2.2 ∈ pagesInSpan ranges s1 e1 :=
        mem_pagesInSpan.mpr ⟨r2, hr2mem, hcase, rfl⟩
      have := hm1le _ hx
      omega
    · push_neg at hr2ov
      rw [not_not] at hcase
      rcases hcase with hlt | hgt
      · omega
      · obtain ⟨r1, hr1mem, hr1ov, hr1pg⟩ := mem_pagesInSpan.mp hm1mem
        push_neg at hr1ov
        rcases pairwise_mem_order hpw hr1mem hr2mem with heq | hR | hR
        · rw [heq] at hr1ov; omega
        · have := hm1le _ (mem_pagesInSpan.mpr ⟨r1, hr1mem, by push_neg; exact hr1ov, rfl⟩)
          have hpg := hR.2.2
          omega
        · have := hR.1
          omega
  · -- M1 ≤ M2: take the range witnessing M1
    obtain ⟨r1, hr1mem, hr1ov, hr1pg⟩ := mem_pagesInSpan.mp hM1mem
    by_cases hcase : ¬ (r1.2.1 < s2 ∨ r1.1 > e2)
    · have hx : r1.2.2 ∈ pagesInSpan ranges s2 e2 :=
        mem_pagesInSpan.mpr ⟨r1, hr1mem, hcase, rfl⟩
      have := hM2ge _ hx
      omega
    · push_neg at hr1ov
      rw [not_not] at hcase
      rcases hcase with hlt | hgt
      · obtain ⟨r2, hr2mem, hr2ov, hr2pg⟩ := mem_pagesInSpan.mp hM2mem
        push_neg at hr2ov
        rcases pairwise_mem_order hpw hr1mem hr2mem with heq | hR | hR
        · rw [heq] at hlt; omega
        · have hpg := hR.2.2
          omega
        · have := hR.2.1
          omega
      · omega

theorem assignPages_get?_spec (ranges : List (Nat × Nat × Int)) :
    ∀ (ts : List (List Char)) (c i j : Nat) (cj : Chunk),
    (assignPages ranges c i ts).get? j = some cj →
    ∃ s e : Nat, c ≤ s ∧ s ≤ e ∧
      cj.page_start = (pageBoundsOf ranges s e).1 ∧
      cj.page_end = (pageBoundsOf ranges s e).2 := by
  intro ts
  induction ts with
  | nil => intro c i j cj h; simp [assignPages] at h
  | cons t ts ih =>
    intro c i j cj h
    cases j with
    | zero =>
      simp only [assignPages, List.get?_cons_zero, Option.some.injEq] at h
      exact ⟨c, c + t.length, le_refl c, by omega, by rw [← h], by rw [← h]⟩
    | succ j =>
      simp only [assignPages, List.get?_cons_succ] at h
      obtain ⟨s, e, hs, hse, hh1, hh2⟩ := ih (c + t.length) (i + 1) j cj h
      exact ⟨s, e, by omega, hse, hh1, hh2⟩

theorem assignPages_mono (ranges : List (Nat × Nat × Int))
    (hpw : List.Pairwise RgRel ranges) :
    ∀ (ts : List (List Char)) (c i0 i j : Nat) (ci cj : Chunk),
    i ≤ j →
    (assignPages ranges c i0 ts).get? i = some ci →
    (assignPages ranges c i0 ts).get? j = some cj →
    ¬ (ci.page_start = -1 ∧ ci.page_end = -1) →
    ¬ (cj.page_start = -1 ∧ cj.page_end = -1) →
    ci.page_start ≤ cj.page_start ∧ ci.page_end ≤ cj.page_end := by
  intro ts
  induction ts with
  | nil => intro c i0 i j ci cj hij hi hj _ _; simp [assignPages] at hi
  | cons t ts ih =>
    intro c i0 i j ci cj hij hi hj hci hcj
    cases i with
    | zero =>
      simp only [assignPages, List.get?_cons_zero, Option.some.injEq] at hi
      cases j with
      | zero =>
        simp only [assignPages, List.get?_cons_zero, Option.some.injEq] at hj
        rw [← hi, ← hj]
        exact ⟨le_refl _, le_refl _⟩
      | succ j =>
        simp only [assignPages, List.get?_cons_succ] at hj
        obtain ⟨s, e, hsc, hse, hjs, hje⟩ :=
          assignPages_get?_spec ranges ts (c + t.length) (i0 + 1) j cj hj
        have hcifs : ci.page_start = (pageBoundsOf ranges c (c + t.length)).1 := by
          rw [← hi]
        have hcife : ci.page_end = (pageBoundsOf ranges c (c + t.length)).2 := by
          rw [← hi]
        have hne1 : pagesInSpan ranges c (c + t.length) ≠ [] :=
          pagesInSpan_ne_of_bounds (by rw [← hcifs, ← hcife]; exact hci)
        have hne2 : pagesInSpan ranges s e ≠ [] :=
          pagesInSpan_ne_of_bounds (by rw [← hjs, ← hje]; exact hcj)
        have hmono := pageBounds_mono hpw (show c ≤ s by omega)
          (show c + t.length ≤ e by omega) hne1 hne2
        rw [hcifs, hcife, hjs, hje]
        exact hmono
    | succ i =>
      cases j with
      | zero => omega
      | succ j =>
        simp only [assignPages, List.get?_cons_succ] at hi hj
        exact ih (c + t.length) (i0 + 1) i j ci cj (by omega) hi hj hci hcj

/-- Claim C3: for a page sequence whose page numbers are in document order
(non-decreasing — as produced by the PDF loader), and for every splitter
behaviour (hence every `chunk_size`/`chunk_overlap` configuration), the
`page_start` and `page_end` of the chunks produced by `chunk_text` are
non-decreasing in `chunk_id` order, the `(-1, -1)` sentinel chunks (spans
past every page) excepted. -/
theorem chunk_text_pages_monotone
    (splitter : List Char → List (List Char)) (pages : List PageInput)
    (hsort : List.Pairwise (fun p q => p.page ≤ q.page) pages)
    (i j : Nat) (hij : i ≤ j) (ci cj : Chunk)
    (hi : (chunk_text splitter pages).get? i = some ci)
    (hj : (chunk_text splitter pages).get? j = some cj)
    (hci : ¬ (ci.page_start = -1 ∧ ci.page_end = -1))
    (hcj : ¬ (cj.page_start = -1 ∧ cj.page_end = -1)) :
    ci.page_start ≤ cj.page_start ∧ ci.page_end ≤ cj.page_end :=
  assignPages_mono (buildPageRanges pages 0)
    (buildPageRanges_pairwise pages hsort 0)
    (splitter (buildFullText pages)) 0 0 i j ci cj hij hi hj hci hcj

/-- Claim C3 witness: a two-page document split into two chunks; the page
bounds advance from `(0, 1)` to `(1, 1)`. -/
theorem chunk_text_pages_monotone_witness :
    (chunk_text c3Split c3Pages).get? 0 =
      some { text := "aaaa\n".toList, chunk_id := 0, page_start := 0, page_end := 1 } ∧
    (chunk_text c3Split c3Pages).get? 1 =
      some { text := "bbbb\n".toList, chunk_id := 1, page_start := 1, page_end := 1 } ∧
    ((0 : Int) ≤ 1 ∧ (1 : Int) ≤ 1) :=
  ⟨by decide, by decide,
    chunk_text_pages_monotone c3Split c3Pages (by decide) 0 1 (by decide)
      { text := "aaaa\n".toList, chunk_id := 0, page_start := 0, page_end := 1 }
      { text := "bbbb\n".toList, chunk_id := 1, page_start := 1, page_end := 1 }
      (by decide) (by decide) (by decide) (by decide)⟩

end PaperRAG
